/-
Verification development for the `freedom-api` Rust client library
(ATLAS-Space-Operations/rust-freedom-api).

The development shallowly embeds the three core components of the crate:

* the error model (`src/error.rs` together with the variants referenced
  by `src/api.rs`);
* the paginated-stream engine `Api::get_paginated` and the helpers
  `error_on_non_success`, `get_json_map`, `path_to_url`, `once_err` and
  the collection endpoints built on them (`src/api.rs`);
* the single-flight caching decorator `CachingClient::get`
  (`src/caching_client.rs`), whose cache is `moka::future::Cache` used
  through `try_get_with`;
* the container types `Inner<T>` (`src/api.rs`) and the `Arc<T>`
  container instance (`src/caching_client.rs`).

External collaborators (the HTTP transport, `serde_json` decoding,
`url::Url` joining, and moka's cache-map primitive) are modelled as
explicit parameters: the transport is a function from URLs to results,
decoders are functions into `Except`, and moka's
get-existing-or-insert-pending semantics is an explicit labelled
transition system.  Async streams are embedded as the finite list of
elements they yield, with an explicit fuel bound on the number of page
hops (the loop in `get_paginated` has no intrinsic bound).
-/
import Mathlib

namespace FreedomApi

/-! ## Error model

`src/error.rs` defines `Error = Builder | Runtime` over `RuntimeError`.
`src/api.rs` additionally constructs the flat variants
`Error::ResponseStatus`, `Error::InvalidUri` and `Error::Response`; the
Lean `Error` type carries all constructors used by the sources. -/

/-- The runtime error enumeration of `src/error.rs` (`RuntimeError`). -/
inductive RuntimeError where
  | Response (msg : String)
  | Deserialization (msg : String)
  | Serialization (msg : String)
  | PaginationItemDeserialization (msg : String)
  | TimeFormatError (msg : String)
  | EnumDeserialization (msg : String)
  | InvalidUri (msg : String)
  | MissingUri (msg : String)
  | InvalidId
  deriving DecidableEq, Repr

/-- The crate error type: the `Runtime` injection from `src/error.rs`
plus the flat variants that `src/api.rs` constructs directly
(`Error::ResponseStatus { status, error }`, `Error::InvalidUri`,
`Error::Response`). -/
inductive Error where
  | Runtime (e : RuntimeError)
  | ResponseStatus (status : Nat) (error : String)
  | InvalidUri (msg : String)
  | Response (msg : String)
  deriving DecidableEq, Repr

/-- `Error::pag_item` (src/error.rs line 15): shorthand building
`Error::Runtime(RuntimeError::PaginationItemDeserialization _)`. -/
def Error.pag_item (s : String) : Error :=
  .Runtime (.PaginationItemDeserialization s)

/-- `impl From<serde_json::Error> for Error` (src/error.rs line 89):
a serde error string becomes `Runtime(Deserialization _)`. -/
def Error.fromSerde (s : String) : Error :=
  .Runtime (.Deserialization s)

/-! ## URLs

`url::Url` is an external collaborator.  We model a URL as its textual
serialization (`as_str`) together with its `has_host()` flag; joining a
base URL with a string (`Url::join`) is an explicit parameter wherever
the source calls it, since its parsing behaviour lives outside the
crate. -/

/-- Shallow model of `url::Url`: the serialized text plus the
`has_host()` flag. -/
structure Url where
  text : String
  hasHost : Bool
  deriving DecidableEq, Repr

/-- The type of the external `Url::join` operation: a base URL and a
string to resolve against it, producing either a URL or a parse-error
message (`url::ParseError::to_string`). -/
abbrev JoinFn := Url → String → Except String Url

/-! ## HTTP statuses and `error_on_non_success` -/

/-- `reqwest::StatusCode::is_success`: the status class 200–299. -/
def isSuccess (status : Nat) : Bool :=
  200 ≤ status && status < 300

/-- `error_on_non_success` (src/api.rs lines 1639–1648): a non-success
status becomes `Error::ResponseStatus` carrying the status and the
lossy-UTF-8 body (bodies are modelled as strings, so the lossy
conversion is the identity). -/
def error_on_non_success (status : Nat) (body : String) : Except Error Unit :=
  if !isSuccess status then
    .error (.ResponseStatus status body)
  else
    .ok ()

/-! ## Single-item fetch: `get_json_map`

`Api::get` returns the raw body bytes and the status code.  We model the
transport as a function from URLs to `Except Error (String × Nat)`
(body, status).  Decoding (`serde_json::from_str`) is a parameter
producing either the decoded value or a serde error message. -/

/-- The transport: `Api::get` behaviour, body and status per URL. -/
abbrev GetFn := Url → Except Error (String × Nat)

/-- `Api::get_json_map` (src/api.rs lines 178–190): fetch, fail on
non-success status, then deserialize the body. -/
def get_json_map {α : Type} (get : GetFn) (parse : String → Except String α)
    (url : Url) : Except Error α :=
  match get url with
  | .error e => .error e
  | .ok (body, status) =>
    match error_on_non_success status body with
    | .error e => .error e
    | .ok _ => (parse body).mapError Error.fromSerde

/-! ## Pages

`Paginated<JsonValue>` (from `freedom_models::pagination`) is the
decoded page shape `{ items: [...], links: { "next": url, ... } }`.
Raw items stay untyped (`JsonValue`), modelled by a type parameter. -/

/-- A decoded page: ordered raw items plus the relation-name → URL link
map (modelled as an association list, looked up by key). -/
structure Page (J : Type) where
  items : List J
  links : List (String × Url)

/-- `HashMap::get` on the link map: first binding for the key. -/
def Page.getLink {J : Type} (p : Page J) (rel : String) : Option Url :=
  (p.links.find? (fun kv => kv.1 == rel)).map (·.2)

/-! ## The paginated-stream engine

`Api::get_paginated` (src/api.rs lines 206–235) drives a loop:

    loop {
        let pag = self.get_json_map::<Paginated<JsonValue>>(current_url).await?;
        for item in pag.items {
            yield serde_json::from_value::<Self::Container<T>>(item).map_err(From::from);
        }
        if let Some(link) = pag.links.get("next") {
            current_url = match link.has_host() {
                true => link.to_owned(),
                false => base.join(link.as_str()).map_err(|e| Error::pag_item(e.to_string()))?,
            };
        } else { break; }
    }

Inside `async_stream::stream!` the `?` operator yields the error as the
final stream element and terminates the stream.  The embedding returns
the pair (list of URLs fetched in order, list of yielded elements); the
loop is given explicit fuel bounding the number of page hops, since the
source loop has no intrinsic bound (claims concern finite link chains,
on which any sufficient fuel yields the exact stream). -/

/-- One resolution step for the "next" link (src/api.rs lines 222–229):
an absolute link (`has_host()`) is used verbatim, otherwise it is
joined onto the entrypoint `base`. -/
def nextUrl (join : JoinFn) (base link : Url) : Except String Url :=
  match link.hasHost with
  | true => .ok link
  | false => join base link.text

/-- The `get_paginated` loop body, instrumented with the list of URLs
fetched (first component) alongside the yielded stream elements (second
component).  `decode` is `serde_json::from_value::<Container<T>>`. -/
def getPaginatedGo {J C : Type} (get : GetFn) (parsePage : String → Except String (Page J))
    (decode : J → Except String C) (join : JoinFn) (base : Url) :
    Nat → Url → List Url × List (Except Error C)
  | 0, _ => ([], [])
  | fuel + 1, current =>
    match get_json_map get parsePage current with
    | .error e => ([current], [.error e])
    | .ok pag =>
      let ys : List (Except Error C) :=
        pag.items.map (fun item => (decode item).mapError Error.fromSerde)
      match pag.getLink "next" with
      | some link =>
        match nextUrl join base link with
        | .error e => ([current], ys ++ [.error (Error.pag_item e)])
        | .ok u2 =>
          let rest := getPaginatedGo get parsePage decode join base fuel u2
          (current :: rest.1, ys ++ rest.2)
      | none => ([current], ys)

/-- `Api::get_paginated`: run the loop from the head URL, with `base`
the configured entrypoint (`self.config().environment().freedom_entrypoint()`). -/
def get_paginated {J C : Type} (get : GetFn) (parsePage : String → Except String (Page J))
    (decode : J → Except String C) (join : JoinFn) (base : Url)
    (fuel : Nat) (head_url : Url) : List Url × List (Except Error C) :=
  getPaginatedGo get parsePage decode join base fuel head_url

/-- The elements yielded for the items of one page: each raw item is
decoded, a failure becoming an inline `Err` element. -/
def pageYields {J C : Type} (decode : J → Except String C) (p : Page J) :
    List (Except Error C) :=
  p.items.map (fun item => (decode item).mapError Error.fromSerde)

/-! ## Request-surface glue: `path_to_url`, `once_err`, endpoints -/

/-- `Api::path_to_url` (src/api.rs lines 238–242): join the path onto
the entrypoint, mapping a parse failure to `Error::InvalidUri`. -/
def path_to_url (join : JoinFn) (entrypoint : Url) (path : String) : Except Error Url :=
  (join entrypoint path).mapError (fun e => Error.InvalidUri e)

/-- `PaginatedErr::once_err` (src/api.rs lines 41–49): a stream that
yields exactly one `Err` element and ends; no URL is ever fetched. -/
def once_err {C : Type} (e : Error) : List Url × List (Except Error C) :=
  ([], [.error e])

/-- `Api::get_accounts` (src/api.rs lines 474–480): build the
`"accounts"` URL, short-circuiting with `once_err` on failure, else
stream the paginated endpoint. -/
def get_accounts {J C : Type} (get : GetFn) (parsePage : String → Except String (Page J))
    (decode : J → Except String C) (join : JoinFn) (entrypoint : Url) (fuel : Nat) :
    List Url × List (Except Error C) :=
  match path_to_url join entrypoint "accounts" with
  | .error err => once_err err
  | .ok uri => get_paginated get parsePage decode join entrypoint fuel uri

/-- `Api::get_satellite_bands` (src/api.rs lines 486–492). -/
def get_satellite_bands {J C : Type} (get : GetFn) (parsePage : String → Except String (Page J))
    (decode : J → Except String C) (join : JoinFn) (entrypoint : Url) (fuel : Nat) :
    List Url × List (Except Error C) :=
  match path_to_url join entrypoint "satellite_bands" with
  | .error err => once_err err
  | .ok uri => get_paginated get parsePage decode join entrypoint fuel uri

/-- `Api::get_users` (src/api.rs lines 1379–1385). -/
def get_users {J C : Type} (get : GetFn) (parsePage : String → Except String (Page J))
    (decode : J → Except String C) (join : JoinFn) (entrypoint : Url) (fuel : Nat) :
    List Url × List (Except Error C) :=
  match path_to_url join entrypoint "users" with
  | .error err => once_err err
  | .ok uri => get_paginated get parsePage decode join entrypoint fuel uri

/-- `Api::get_file_by_task_id_and_name` (src/api.rs lines 441–455):
build the download URL, fetch it, and fail on a non-success status —
passing the fixed byte string `b"Failed to fetch file"` (not the
response body) to `error_on_non_success`. -/
def get_file_by_task_id_and_name (get : GetFn) (join : JoinFn) (entrypoint : Url)
    (task_id : Int) (file_name : String) : Except Error String :=
  match path_to_url join entrypoint ("downloads/" ++ toString task_id ++ "/" ++ file_name) with
  | .error e => .error e
  | .ok uri =>
    match get uri with
    | .error e => .error e
    | .ok (data, status) =>
      match error_on_non_success status "Failed to fetch file" with
      | .error e => .error e
      | .ok _ => .ok data

/-- `Api::post_json_map` (src/api.rs lines 380–397): post the message,
fail on non-success status, then deserialize the response body.  The
posted message is pre-applied into the transport function. -/
def post_json_map {α : Type} (post : Except Error (String × Nat))
    (parse : String → Except String α) : Except Error α :=
  match post with
  | .error e => .error e
  | .ok (body, status) =>
    match error_on_non_success status body with
    | .error e => .error e
    | .ok _ => (parse body).mapError Error.fromSerde

/-- `Api::delete_band_details` (src/api.rs lines 257–264): build the
URL, delete, fail on non-success status (with the response body). -/
def delete_band_details (del : GetFn) (join : JoinFn) (entrypoint : Url)
    (id : Int) : Except Error Unit :=
  match path_to_url join entrypoint ("satellite_bands/" ++ toString id) with
  | .error e => .error e
  | .ok uri =>
    match del uri with
    | .error e => .error e
    | .ok (body, status) =>
      match error_on_non_success status body with
      | .error e => .error e
      | .ok _ => .ok ()

/-- The property "the result is an error carrying status `status` and
body `body`" (the error shape produced by `error_on_non_success`). -/
def carriesStatusAndBody {α : Type} (r : Except Error α) (status : Nat) (body : String) : Prop :=
  r = .error (.ResponseStatus status body)

/-! ## Containers

`Inner<T>` (src/api.rs lines 94–133) and the `Arc<T>` container
instance (src/caching_client.rs lines 35–39). -/

/-- `Inner<T>` (src/api.rs line 104): a transparent stack wrapper. -/
structure Inner (T : Type) where
  val : T
  deriving DecidableEq, Repr

/-- `Inner::new` (src/api.rs lines 129–133). -/
def Inner.new {T : Type} (t : T) : Inner T := ⟨t⟩

/-- `Deref for Inner<T>` (src/api.rs lines 106–112): `&self.0`. -/
def Inner.deref {T : Type} (i : Inner T) : T := i.val

/-- `Container<T> for Inner<T>` (src/api.rs lines 120–127):
`into_inner` returns `self.0`. -/
def Inner.into_inner {T : Type} (i : Inner T) : T := i.val

/-- Shallow model of `std::sync::Arc<T>`: the pointed-to value.  The
reference count is not observable at the value level; `Clone` for the
crate's value types produces an equal value. -/
structure Shared (T : Type) where
  val : T
  deriving DecidableEq, Repr

/-- `Arc::new`. -/
def Shared.new {T : Type} (t : T) : Shared T := ⟨t⟩

/-- `Deref for Arc<T>`: the referenced value. -/
def Shared.deref {T : Type} (a : Shared T) : T := a.val

/-- `FreedomApiContainer<T> for Arc<T>` (src/caching_client.rs lines
35–39): `into_inner` is `Arc::unwrap_or_clone`, which moves the value
out when uniquely held and clones it otherwise — in both cases the
referenced value. -/
def Shared.into_inner {T : Type} (a : Shared T) : T := a.val

/-! ## The caching decorator (`CachingClient::get`)

`src/caching_client.rs` lines 46–72:

    let client = self.inner.clone();
    let value = self.cache.try_get_with(url.clone(), async move {
        match client.get_body(url.clone()).await {
            Ok(body) => match serde_json::from_str::<Value>(&body) {
                Ok(val) => Ok(val),
                Err(e) => Err(RuntimeError::Deserialization(e.to_string())),
            },
            Err(e) => Err(RuntimeError::Response(e.to_string())),
        }
    }).await;
    match value {
        Ok(val) => Ok(serde_json::from_value::<T>(val)?),
        Err(e) => Err(Error::Runtime((*e).clone())),
    }

The cache is `moka::future::Cache<Url, serde_json::Value>`.
`try_get_with` is moka's atomic get-existing-or-insert-pending
primitive: the first caller for an absent key runs the init future;
callers arriving while it is pending await the same shared future; an
`Ok` value is stored, an `Err` is returned to every waiter and nothing
is stored.  We model this collaborator as a labelled transition system
for a single key: each caller is `idle`, `fetching` (it started the
init future), `waiting` (attached to the pending future) or `done`;
a `start i` event is caller `i`'s atomic cache lookup, and a `resolve`
event is the completion of the in-flight init future.  The `k`-th init
future's outcome is `server k`; `decodeT` is the final
`serde_json::from_value::<T>` applied to the cached JSON value. -/

/-- The body of the init future passed to `try_get_with`
(src/caching_client.rs lines 57–65): fetch the body, parse it as JSON;
a transport failure becomes `RuntimeError::Response`, a parse failure
`RuntimeError::Deserialization`. -/
def initFuture {J : Type} (getBody : Except String String)
    (parseJson : String → Except String J) : Except RuntimeError J :=
  match getBody with
  | .ok body =>
    match parseJson body with
    | .ok val => .ok val
    | .error e => .error (.Deserialization e)
  | .error e => .error (.Response e)

/-- The result delivered to a caller from the shared outcome
(src/caching_client.rs lines 68–71): an `Ok` JSON value is decoded into
`T` (failure becoming a serde `Deserialization` error), an `Err` is
wrapped as `Error::Runtime`. -/
def deliver {J T : Type} (decodeT : J → Except String T) :
    Except RuntimeError J → Except Error T
  | .ok val => (decodeT val).mapError Error.fromSerde
  | .error e => .error (.Runtime e)

/-- The observable state of one caller of `CachingClient::get`. -/
inductive CallerState (R : Type) where
  | idle
  | fetching
  | waiting
  | done (r : R)
  deriving DecidableEq, Repr

/-- Whether a caller is currently running the init future. -/
def CallerState.isFetching {R : Type} : CallerState R → Bool
  | .fetching => true
  | _ => false

/-- State of the cache key shared by `n` concurrent callers: the cached
JSON value (if populated), each caller's state, the number of init
futures started (network fetches by the inner client) and completed. -/
structure FlightState (J R : Type) where
  n : Nat
  entry : Option J
  callers : Nat → CallerState R
  fetchCount : Nat
  resolveCount : Nat

/-- Whether some caller's init future is in flight (the key is in the
`Pending` state of the per-key state machine). -/
def pendingExists {J R : Type} (s : FlightState J R) : Bool :=
  (List.range s.n).any (fun i => (s.callers i).isFetching)

/-- Events of the single-key machine: `start i` is caller `i`'s atomic
`try_get_with` lookup; `resolve` completes the in-flight init future. -/
inductive FlightEv where
  | start (i : Nat)
  | resolve
  deriving DecidableEq, Repr

/-- One transition of the single-key machine, modelling
`moka::future::Cache::try_get_with`:

* `start i` (caller `i` not yet started): a populated entry is
  delivered immediately; on an absent entry the caller attaches to the
  pending future if one is in flight, otherwise it starts the init
  future (one inner-client network fetch);
* `resolve`: the in-flight init future completes with outcome
  `server resolveCount`; every fetching or waiting caller receives the
  delivered result; an `Ok` value is stored in the entry, an `Err`
  leaves the entry absent. -/
def applyEv {J T : Type} (server : Nat → Except RuntimeError J)
    (decodeT : J → Except String T) (ev : FlightEv)
    (s : FlightState J (Except Error T)) : Option (FlightState J (Except Error T)) :=
  match ev with
  | .start i =>
    if i < s.n then
      match s.callers i with
      | .idle =>
        match s.entry with
        | some val =>
          some { s with callers := Function.update s.callers i (.done (deliver decodeT (.ok val))) }
        | none =>
          if pendingExists s then
            some { s with callers := Function.update s.callers i .waiting }
          else
            some { s with callers := Function.update s.callers i .fetching,
                          fetchCount := s.fetchCount + 1 }
      | _ => none
    else none
  | .resolve =>
    if pendingExists s then
      let o := server s.resolveCount
      some { n := s.n
             entry := match o with | .ok v => some v | .error _ => none
             callers := fun i =>
               match s.callers i with
               | .fetching => .done (deliver decodeT o)
               | .waiting => .done (deliver decodeT o)
               | c => c
             fetchCount := s.fetchCount
             resolveCount := s.resolveCount + 1 }
    else none

/-- Run a sequence of events, failing if any event is not enabled. -/
def runEvents {J T : Type} (server : Nat → Except RuntimeError J)
    (decodeT : J → Except String T) :
    List FlightEv → FlightState J (Except Error T) → Option (FlightState J (Except Error T))
  | [], s => some s
  | ev :: evs, s =>
    match applyEv server decodeT ev s with
    | some s' => runEvents server decodeT evs s'
    | none => none

/-- The initial state for `n` concurrent callers of a not-yet-cached
URL: entry absent, every caller idle, no fetch started. -/
def initState (J T : Type) (n : Nat) : FlightState J (Except Error T) :=
  { n := n
    entry := none
    callers := fun _ => .idle
    fetchCount := 0
    resolveCount := 0 }

/-- Invariant of the single-key machine after a fetch has been started
and the callers listed in `procd` have each performed their atomic
lookup (none having resolved yet): the entry is still absent, exactly
one init future has been started and none completed, every processed
caller is fetching or waiting on the shared future, every other caller
is still idle, and a fetch is in flight. -/
structure StartsInv (J T : Type) (procd : List Nat)
    (s : FlightState J (Except Error T)) : Prop where
  entry_none : s.entry = none
  fetch_one : s.fetchCount = 1
  resolve_zero : s.resolveCount = 0
  procd_lt : ∀ i ∈ procd, i < s.n
  started : ∀ i ∈ procd, s.callers i = .fetching ∨ s.callers i = .waiting
  unstarted : ∀ i, i < s.n → i ∉ procd → s.callers i = .idle
  pending : pendingExists s = true

/-! ## The caching client's method surface

`CachingClient` (src/caching_client.rs) defines no inherent methods;
its whole method surface is the `FreedomApi` impl (lines 41–100):
`get`, `post`, `config`, `config_mut`.  This list enumerates those
`fn` items, for claims about which operations the decorator exposes. -/

/-- The `fn` items defined on `CachingClient` in src/caching_client.rs
(the `impl FreedomApi for CachingClient` block; there is no inherent
`impl CachingClient` block). -/
def cachingClientMethods : List String :=
  ["get", "post", "config", "config_mut"]

/-! ## Concrete fixtures

Mock transports and pages used to witness the theorems on concrete
inputs (mirroring the spec's mocked 3-page chain). -/

/-- Absolute URL of page 1 of the mocked chain. -/
def url1 : Url := ⟨"https://api.example/accounts?page=1", true⟩

/-- Absolute URL of page 2 of the mocked chain. -/
def url2 : Url := ⟨"https://api.example/accounts?page=2", true⟩

/-- Absolute URL of page 3 of the mocked chain. -/
def url3 : Url := ⟨"https://api.example/accounts?page=3", true⟩

/-- Page 1: items 1, 2; next → `url2`. -/
def page1 : Page Nat := ⟨[1, 2], [("next", url2)]⟩

/-- Page 2: item 3; next → `url3`. -/
def page2 : Page Nat := ⟨[3], [("next", url3)]⟩

/-- Page 3: items 4, 5; no next link. -/
def page3 : Page Nat := ⟨[4, 5], []⟩

/-- Mock transport serving the 3-page chain with status 200. -/
def mockGet : GetFn := fun u =>
  if u = url1 then .ok ("body1", 200)
  else if u = url2 then .ok ("body2", 200)
  else if u = url3 then .ok ("body3", 200)
  else .error (.Response "no route")

/-- Mock page decoder for the bodies served by `mockGet`. -/
def mockParsePage : String → Except String (Page Nat) := fun s =>
  if s = "body1" then .ok page1
  else if s = "body2" then .ok page2
  else if s = "body3" then .ok page3
  else .error "bad page"

/-- Mock item decoder: every raw item decodes to itself. -/
def mockDecode : Nat → Except String Nat := fun n => .ok n

/-- Mock item decoder failing exactly on item 3 (the only item of
page 2 of the mocked chain). -/
def mockDecodeBad3 : Nat → Except String Nat := fun n =>
  if n = 3 then .error "invalid type: map" else .ok n

/-- A join function that is never consulted (all links absolute). -/
def mockJoin : JoinFn := fun _ _ => .error "join unused"

/-- Mock transport where fetching page 2 returns status 500. -/
def mockGet500 : GetFn := fun u =>
  if u = url1 then .ok ("body1", 200)
  else if u = url2 then .ok ("oops", 500)
  else .error (.Response "no route")

/-- Relative "next" link (no host). -/
def linkRel : Url := ⟨"/accounts?page=2", false⟩

/-- URL of a page carrying a relative next link. -/
def urlR : Url := ⟨"https://api.example/accounts", true⟩

/-- Page with one item and a relative next link. -/
def pageR : Page Nat := ⟨[7], [("next", linkRel)]⟩

/-- Mock transport serving `pageR` at `urlR`. -/
def mockGetR : GetFn := fun u =>
  if u = urlR then .ok ("bodyR", 200) else .error (.Response "no route")

/-- Mock page decoder for `mockGetR`. -/
def mockParsePageR : String → Except String (Page Nat) := fun s =>
  if s = "bodyR" then .ok pageR else .error "bad page"

/-- A join function that always fails to parse. -/
def mockJoinFail : JoinFn := fun _ _ => .error "relative URL without a base"

/-- A join function resolving paths by text concatenation. -/
def mockJoinConcat : JoinFn := fun b p => .ok ⟨b.text ++ "/" ++ p, true⟩

/-! ## Link chains

A finite chain of pages reachable from a URL by "next" links, as the
server presents it through the transport and the page decoder: every
page of the chain fetches and decodes successfully, each non-final page
carries a "next" link that resolves to the next page's URL, and the
final page has no "next" link. -/

/-- `Chain get parsePage join base u pages`: from `u`, the successive
page fetches succeed and follow "next" links through exactly `pages`
(each paired with the URL it was served at), ending at a page with no
"next" relation. -/
inductive Chain {J : Type} (get : GetFn) (parsePage : String → Except String (Page J))
    (join : JoinFn) (base : Url) : Url → List (Url × Page J) → Prop where
  | last (u : Url) (p : Page J) :
      get_json_map get parsePage u = .ok p →
      p.getLink "next" = none →
      Chain get parsePage join base u [(u, p)]
  | step (u : Url) (p : Page J) (link u2 : Url) (rest : List (Url × Page J)) :
      get_json_map get parsePage u = .ok p →
      p.getLink "next" = some link →
      nextUrl join base link = .ok u2 →
      Chain get parsePage join base u2 rest →
      Chain get parsePage join base u ((u, p) :: rest)

/-- `ChainFail get parsePage join base u pages f e`: from `u` the chain
fetches pages `pages` successfully and follows their "next" links, but
the fetch of the next URL `f` fails with error `e`. -/
inductive ChainFail {J : Type} (get : GetFn) (parsePage : String → Except String (Page J))
    (join : JoinFn) (base : Url) : Url → List (Url × Page J) → Url → Error → Prop where
  | here (u : Url) (e : Error) :
      get_json_map get parsePage u = .error e →
      ChainFail get parsePage join base u [] u e
  | step (u : Url) (p : Page J) (link u2 : Url) (rest : List (Url × Page J))
      (f : Url) (e : Error) :
      get_json_map get parsePage u = .ok p →
      p.getLink "next" = some link →
      nextUrl join base link = .ok u2 →
      ChainFail get parsePage join base u2 rest f e →
      ChainFail get parsePage join base u ((u, p) :: rest) f e

/-- Characterization of the engine on a successful chain: with fuel at
least the chain length, the loop fetches exactly the chain's URLs in
order and yields exactly the concatenation of the pages' decoded
items. -/
theorem getPaginatedGo_chain {J C : Type} (get : GetFn)
    (parsePage : String → Except String (Page J)) (decode : J → Except String C)
    (join : JoinFn) (base : Url) :
    ∀ (u : Url) (pages : List (Url × Page J)),
      Chain get parsePage join base u pages →
      ∀ fuel : Nat, pages.length ≤ fuel →
      getPaginatedGo get parsePage decode join base fuel u =
        (pages.map Prod.fst, (pages.map (fun up => pageYields decode up.2)).flatten) := by
  intro u pages hchain
  induction hchain with
  | last u p hfetch hlink =>
    intro fuel hfuel
    match fuel, hfuel with
    | fuel + 1, _ =>
      simp [getPaginatedGo, hfetch, hlink, pageYields]
  | step u p link u2 rest hfetch hlink hnext _ ih =>
    intro fuel hfuel
    match fuel, hfuel with
    | fuel + 1, hfuel =>
      have hrest : rest.length ≤ fuel := by
        simpa using Nat.lt_succ_iff.mp (Nat.lt_of_lt_of_le (by simp) hfuel)
      simp [getPaginatedGo, hfetch, hlink, hnext, ih fuel hrest, pageYields]

/-- Characterization of the engine on a chain ending in a page-level
failure: the loop fetches the successful pages then the failing URL
once, yields their decoded items in order, then one terminal error
element. -/
theorem getPaginatedGo_chainFail {J C : Type} (get : GetFn)
    (parsePage : String → Except String (Page J)) (decode : J → Except String C)
    (join : JoinFn) (base : Url) :
    ∀ (u : Url) (pages : List (Url × Page J)) (f : Url) (e : Error),
      ChainFail get parsePage join base u pages f e →
      ∀ fuel : Nat, pages.length + 1 ≤ fuel →
      getPaginatedGo get parsePage decode join base fuel u =
        (pages.map Prod.fst ++ [f],
         (pages.map (fun up => pageYields decode up.2)).flatten ++ [.error e]) := by
  intro u pages f e hchain
  induction hchain with
  | here u e hfetch =>
    intro fuel hfuel
    match fuel, hfuel with
    | fuel + 1, _ =>
      simp [getPaginatedGo, hfetch]
  | step u p link u2 rest f e hfetch hlink hnext _ ih =>
    intro fuel hfuel
    match fuel, hfuel with
    | fuel + 1, hfuel =>
      have hrest : rest.length + 1 ≤ fuel := by
        have h2 : rest.length + 1 + 1 ≤ fuel + 1 := by simpa using hfuel
        omega
      simp [getPaginatedGo, hfetch, hlink, hnext, ih fuel hrest, pageYields]

/-! ## Lemmas on the single-flight machine -/

/-- `pendingExists` unfolded: some caller below `n` is fetching. -/
theorem pendingExists_iff {J R : Type} (s : FlightState J R) :
    pendingExists s = true ↔ ∃ k, k < s.n ∧ (s.callers k).isFetching = true := by
  simp [pendingExists, List.any_eq_true, List.mem_range]

/-- A caller's atomic lookup while a fetch is in flight attaches it to
the shared pending future, preserving the invariant. -/
theorem startsInv_step {J T : Type} (server : Nat → Except RuntimeError J)
    (decodeT : J → Except String T) (procd : List Nat)
    (s : FlightState J (Except Error T)) (i : Nat)
    (hinv : StartsInv J T procd s) (hi : i < s.n) (hnew : i ∉ procd) :
    applyEv server decodeT (.start i) s =
      some { s with callers := Function.update s.callers i .waiting } ∧
    StartsInv J T (i :: procd) { s with callers := Function.update s.callers i .waiting } := by
  have hidle := hinv.unstarted i hi hnew
  have hpend := hinv.pending
  constructor
  · simp [applyEv, hi, hidle, hinv.entry_none, hpend]
  · refine ⟨hinv.entry_none, hinv.fetch_one, hinv.resolve_zero, ?_, ?_, ?_, ?_⟩
    · intro j hj
      rcases List.mem_cons.mp hj with h | h
      · simpa [h] using hi
      · exact hinv.procd_lt j h
    · intro j hj
      rcases List.mem_cons.mp hj with h | h
      · subst h
        right
        simp
      · have hne : j ≠ i := fun he => hnew (he ▸ h)
        dsimp only
        rw [Function.update_noteq hne]
        exact hinv.started j h
    · intro j hjn hj
      have hne : j ≠ i := fun he => hj (by simp [he])
      dsimp only
      rw [Function.update_noteq hne]
      exact hinv.unstarted j hjn (fun hmem => hj (List.mem_cons_of_mem _ hmem))
    · obtain ⟨k, hk, hkf⟩ := (pendingExists_iff s).mp hpend
      have hne : k ≠ i := by
        intro he
        rw [he, hidle] at hkf
        exact absurd hkf (by simp [CallerState.isFetching])
      exact (pendingExists_iff _).mpr ⟨k, hk, by simpa [Function.update_noteq hne] using hkf⟩

/-- Running the remaining callers' lookups in any order keeps the
invariant, accumulating them into the processed set. -/
theorem startsInv_run {J T : Type} (server : Nat → Except RuntimeError J)
    (decodeT : J → Except String T) :
    ∀ (rest procd : List Nat) (s : FlightState J (Except Error T)),
      StartsInv J T procd s → rest.Nodup → (∀ i ∈ rest, i < s.n ∧ i ∉ procd) →
      ∃ s', runEvents server decodeT (rest.map FlightEv.start) s = some s' ∧
        s'.n = s.n ∧ StartsInv J T (rest.reverse ++ procd) s' := by
  intro rest
  induction rest with
  | nil =>
    exact fun procd s hinv _ _ => ⟨s, rfl, rfl, by simpa using hinv⟩
  | cons i rest ih =>
    intro procd s hinv hnodup hmem
    obtain ⟨hi, hni⟩ := hmem i (List.mem_cons_self i rest)
    obtain ⟨happ, hinv1⟩ := startsInv_step server decodeT procd s i hinv hi hni
    obtain ⟨s', hrun, hn', hinv'⟩ :=
      ih (i :: procd) { s with callers := Function.update s.callers i .waiting } hinv1
        (List.Nodup.of_cons hnodup)
        (fun j hj => by
          refine ⟨(hmem j (List.mem_cons_of_mem _ hj)).1, ?_⟩
          intro hjmem
          rcases List.mem_cons.mp hjmem with h | h
          · exact (List.nodup_cons.mp hnodup).1 (h ▸ hj)
          · exact (hmem j (List.mem_cons_of_mem _ hj)).2 h)
    refine ⟨s', ?_, hn', ?_⟩
    · simpa [runEvents, happ] using hrun
    · simpa [List.append_assoc] using hinv'

/-- Resolving the in-flight fetch delivers the shared outcome to every
processed caller, stores a success and drops a failure. -/
theorem startsInv_resolve {J T : Type} (server : Nat → Except RuntimeError J)
    (decodeT : J → Except String T) (procd : List Nat)
    (s : FlightState J (Except Error T)) (hinv : StartsInv J T procd s) :
    ∃ s', applyEv server decodeT .resolve s = some s' ∧
      s'.n = s.n ∧ s'.fetchCount = s.fetchCount ∧
      s'.entry = (match server s.resolveCount with | .ok v => some v | .error _ => none) ∧
      ∀ i ∈ procd, s'.callers i = .done (deliver decodeT (server s.resolveCount)) := by
  refine ⟨{ n := s.n
            entry := match server s.resolveCount with | .ok v => some v | .error _ => none
            callers := fun i =>
              match s.callers i with
              | .fetching => .done (deliver decodeT (server s.resolveCount))
              | .waiting => .done (deliver decodeT (server s.resolveCount))
              | c => c
            fetchCount := s.fetchCount
            resolveCount := s.resolveCount + 1 }, ?_, rfl, rfl, rfl, ?_⟩
  · simp [applyEv, hinv.pending]
  · intro i hi
    rcases hinv.started i hi with h | h <;> simp [h]

/-- Running a concatenation of event lists runs them in sequence. -/
theorem runEvents_append {J T : Type} (server : Nat → Except RuntimeError J)
    (decodeT : J → Except String T) (a b : List FlightEv)
    (s : FlightState J (Except Error T)) :
    runEvents server decodeT (a ++ b) s =
      match runEvents server decodeT a s with
      | some s' => runEvents server decodeT b s'
      | none => none := by
  induction a generalizing s with
  | nil => rfl
  | cons e a ih =>
    simp only [List.cons_append, runEvents]
    cases applyEv server decodeT e s with
    | none => rfl
    | some s' => exact ih s'

/-- No fetch is in flight in the initial state. -/
theorem pendingExists_initState (J T : Type) (n : Nat) :
    pendingExists (initState J T n) = false := by
  simp [pendingExists, initState, CallerState.isFetching]

/-- C1: for every set of `n` concurrent `CachingClient::get` calls on
the same not-yet-cached URL — each caller performing its atomic cache
lookup (in any order) while the single fetch is in flight, then the
shared init future resolving — exactly one network fetch is performed
by the inner client, and every caller observes the identical delivered
outcome (the same success value or the same error). -/
theorem caching_get_single_flight {J T : Type} (server : Nat → Except RuntimeError J)
    (decodeT : J → Except String T) (n : Nat) (order : List Nat)
    (hnodup : order.Nodup) (hmem : ∀ i, i ∈ order ↔ i < n) (hn : 0 < n) :
    ∃ s', runEvents server decodeT (order.map FlightEv.start ++ [FlightEv.resolve])
            (initState J T n) = some s' ∧
      s'.fetchCount = 1 ∧
      ∀ i, i < n → s'.callers i = .done (deliver decodeT (server 0)) := by
  match order, hnodup, hmem with
  | [], _, hmem =>
    exact absurd ((hmem 0).mpr hn) (by simp)
  | i0 :: rest, hnodup, hmem =>
    have hi0 : i0 < n := (hmem i0).mp (List.mem_cons_self i0 rest)
    have hpend0 := pendingExists_initState J T n
    simp only [initState] at hpend0
    have happ0 : applyEv server decodeT (.start i0) (initState J T n) =
        some { n := n, entry := none,
               callers := Function.update (fun _ => CallerState.idle) i0 .fetching,
               fetchCount := 1, resolveCount := 0 } := by
      simp [applyEv, initState, hi0, hpend0]
    have hinv1 : StartsInv J T [i0]
        { n := n, entry := none,
          callers := Function.update (fun _ => CallerState.idle) i0 .fetching,
          fetchCount := 1, resolveCount := 0 } := by
      refine ⟨rfl, rfl, rfl, ?_, ?_, ?_, ?_⟩
      · intro j hj
        simp only [List.mem_singleton] at hj
        simpa [hj] using hi0
      · intro j hj
        simp only [List.mem_singleton] at hj
        subst hj
        left
        simp
      · intro j _ hj
        have hne : j ≠ i0 := by simpa using hj
        dsimp only
        rw [Function.update_noteq hne]
      · exact (pendingExists_iff _).mpr ⟨i0, hi0, by simp [CallerState.isFetching]⟩
    obtain ⟨s2, hrun2, hn2, hinv2⟩ :=
      startsInv_run server decodeT rest [i0] _ hinv1 (List.Nodup.of_cons hnodup)
        (fun j hj => ⟨(hmem j).mp (List.mem_cons_of_mem _ hj),
          by
            have : i0 ∉ rest := (List.nodup_cons.mp hnodup).1
            simp only [List.mem_singleton]
            exact fun he => this (he ▸ hj)⟩)
    obtain ⟨s3, happ3, hn3, hfetch3, _, hdone3⟩ :=
      startsInv_resolve server decodeT _ s2 hinv2
    refine ⟨s3, ?_, ?_, ?_⟩
    · rw [List.map_cons, List.cons_append]
      rw [runEvents, happ0]
      dsimp only
      rw [runEvents_append, hrun2]
      simp [runEvents, happ3]
    · rw [hfetch3, hinv2.fetch_one]
    · intro i hi
      have hiord : i ∈ i0 :: rest := (hmem i).mpr hi
      have hiproc : i ∈ rest.reverse ++ [i0] := by
        rcases List.mem_cons.mp hiord with h | h
        · simp [h]
        · simp [List.mem_reverse, h]
      have := hdone3 i hiproc
      rwa [hinv2.resolve_zero] at this

/-- Witness for C1: three concurrent callers (performing their lookups
in the order 1, 0, 2) on an absent key with a server answering 42. -/
theorem caching_get_single_flight_witness :
    ∃ s', runEvents (fun _ => Except.ok 42) (fun v : Nat => Except.ok v)
            (([1, 0, 2].map FlightEv.start) ++ [FlightEv.resolve])
            (initState Nat Nat 3) = some s' ∧
      s'.fetchCount = 1 ∧
      ∀ i, i < 3 → s'.callers i =
        .done (deliver (fun v : Nat => Except.ok v) (Except.ok 42)) :=
  caching_get_single_flight (fun _ => Except.ok 42) (fun v : Nat => Except.ok v) 3 [1, 0, 2]
    (by decide)
    (by
      intro i
      simp only [List.mem_cons, List.not_mem_nil, or_false]
      omega)
    (by decide)

/-- C2: if a `CachingClient::get` fails (the inner fetch errors or the
body fails to parse as JSON, i.e. the init future of attempt 0 resolves
to an error), the cache entry stays absent after the shared attempt
resolves and the failing caller receives `Error::Runtime`; a later call
for the same URL starts a fresh network fetch (the fetch count rises to
2) and succeeds when the server now responds successfully. -/
theorem caching_get_error_not_poisoned {J T : Type}
    (getBodyAt : Nat → Except String String) (parseJson : String → Except String J)
    (decodeT : J → Except String T) (e0 : RuntimeError) (body1 : String) (v1 : J) (t1 : T)
    (h0 : initFuture (getBodyAt 0) parseJson = .error e0)
    (h1 : getBodyAt 1 = .ok body1) (hp : parseJson body1 = .ok v1)
    (hd : decodeT v1 = .ok t1) :
    (runEvents (fun k => initFuture (getBodyAt k) parseJson) decodeT
        [.start 0, .resolve] (initState J T 2)).map
        (fun s => (s.entry, s.callers 0, s.fetchCount)) =
      some (none, .done (.error (.Runtime e0)), 1) ∧
    (runEvents (fun k => initFuture (getBodyAt k) parseJson) decodeT
        [.start 0, .resolve, .start 1, .resolve] (initState J T 2)).map
        (fun s => (s.fetchCount, s.callers 1)) =
      some (2, .done (.ok t1)) := by
  have h1' : initFuture (getBodyAt 1) parseJson = Except.ok v1 := by
    simp [initFuture, h1, hp]
  constructor <;>
    simp [runEvents, applyEv, initState, pendingExists, CallerState.isFetching, deliver,
      List.range_succ, Function.update, Except.mapError, h0, h1', hd]

/-- Witness for C2: attempt 0's body fails to parse, attempt 1 parses
and decodes to 7. -/
theorem caching_get_error_not_poisoned_witness :
    (runEvents (fun k => initFuture ((fun j => if j = 0 then Except.error "timed out"
          else Except.ok "7") k) (fun b => if b = "7" then Except.ok 7 else Except.error "nan"))
        (fun v : Nat => Except.ok v) [.start 0, .resolve] (initState Nat Nat 2)).map
        (fun s => (s.entry, s.callers 0, s.fetchCount)) =
      some (none, .done (.error (.Runtime (.Response "timed out"))), 1) ∧
    (runEvents (fun k => initFuture ((fun j => if j = 0 then Except.error "timed out"
          else Except.ok "7") k) (fun b => if b = "7" then Except.ok 7 else Except.error "nan"))
        (fun v : Nat => Except.ok v) [.start 0, .resolve, .start 1, .resolve]
        (initState Nat Nat 2)).map
        (fun s => (s.fetchCount, s.callers 1)) =
      some (2, .done (.ok 7)) :=
  caching_get_error_not_poisoned
    (fun j => if j = 0 then Except.error "timed out" else Except.ok "7")
    (fun b => if b = "7" then Except.ok 7 else Except.error "nan")
    (fun v : Nat => Except.ok v) (.Response "timed out") "7" 7 7
    rfl rfl rfl rfl

/-- C3: on every finite chain of pages reachable from the start URL by
"next" links, `get_paginated` fetches exactly the chain's URLs in order
(strictly sequentially, one fetch per page) and yields exactly the
pages' items in server page order, terminating after the items of the
first page without a "next" relation. -/
theorem get_paginated_chain_order {J C : Type} (get : GetFn)
    (parsePage : String → Except String (Page J)) (decode : J → Except String C)
    (join : JoinFn) (base u : Url) (pages : List (Url × Page J)) (fuel : Nat)
    (hchain : Chain get parsePage join base u pages) (hfuel : pages.length ≤ fuel) :
    (get_paginated get parsePage decode join base fuel u).1 = pages.map Prod.fst ∧
    (get_paginated get parsePage decode join base fuel u).2 =
      (pages.map (fun up => pageYields decode up.2)).flatten := by
  rw [get_paginated, getPaginatedGo_chain get parsePage decode join base u pages hchain fuel hfuel]
  exact ⟨rfl, rfl⟩

/-- Witness for C3: the mocked 3-page chain yields the concatenation of
all items in order and the three page URLs in order. -/
theorem get_paginated_chain_order_witness :
    (get_paginated mockGet mockParsePage mockDecode mockJoin url1 3 url1).1 =
      [url1, url2, url3] ∧
    (get_paginated mockGet mockParsePage mockDecode mockJoin url1 3 url1).2 =
      [.ok 1, .ok 2, .ok 3, .ok 4, .ok 5] := by
  have h := get_paginated_chain_order mockGet mockParsePage mockDecode mockJoin url1 url1
    [(url1, page1), (url2, page2), (url3, page3)] 3
    (Chain.step url1 page1 url2 url2 [(url2, page2), (url3, page3)] rfl rfl rfl
      (Chain.step url2 page2 url3 url3 [(url3, page3)] rfl rfl rfl
        (Chain.last url3 page3 rfl rfl)))
    (by decide)
  refine ⟨h.1, ?_⟩
  rw [h.2]
  rfl

/-- C4: a raw item that fails to decode contributes exactly one inline
`Err` element (a deserialization error) at its position; every other
item of its page and of every other page of the chain is still yielded
(the stream's length is the total item count — nothing is aborted). -/
theorem get_paginated_item_failure_isolated {J C : Type} (get : GetFn)
    (parsePage : String → Except String (Page J)) (decode : J → Except String C)
    (join : JoinFn) (base u : Url) (front back : List (Url × Page J))
    (ub : Url) (pb : Page J) (pre post : List J) (bad : J) (msg : String) (fuel : Nat)
    (hchain : Chain get parsePage join base u (front ++ (ub, pb) :: back))
    (hitems : pb.items = pre ++ bad :: post)
    (hbad : decode bad = .error msg)
    (hfuel : (front ++ (ub, pb) :: back).length ≤ fuel) :
    (get_paginated get parsePage decode join base fuel u).2 =
      (front.map (fun up => pageYields decode up.2)).flatten
        ++ pre.map (fun it => (decode it).mapError Error.fromSerde)
        ++ [.error (Error.fromSerde msg)]
        ++ post.map (fun it => (decode it).mapError Error.fromSerde)
        ++ (back.map (fun up => pageYields decode up.2)).flatten ∧
    (get_paginated get parsePage decode join base fuel u).2.length =
      ((front ++ (ub, pb) :: back).map (fun up => up.2.items.length)).sum := by
  rw [get_paginated,
    getPaginatedGo_chain get parsePage decode join base u _ hchain fuel hfuel]
  constructor
  · simp [pageYields, hitems, hbad, Except.mapError, List.append_assoc]
  · simp [pageYields, Function.comp_def, List.length_map]

/-- Witness for C4: with a decoder failing exactly on page 2's only
item, the mocked 3-page chain still yields all five elements, the bad
item as one inline error. -/
theorem get_paginated_item_failure_isolated_witness :
    (get_paginated mockGet mockParsePage mockDecodeBad3 mockJoin url1 3 url1).2 =
      [.ok 1, .ok 2, .error (Error.fromSerde "invalid type: map"), .ok 4, .ok 5] ∧
    (get_paginated mockGet mockParsePage mockDecodeBad3 mockJoin url1 3 url1).2.length = 5 := by
  have h := get_paginated_item_failure_isolated mockGet mockParsePage mockDecodeBad3 mockJoin
    url1 url1 [(url1, page1)] [(url3, page3)] url2 page2 [] [] 3 "invalid type: map" 3
    (Chain.step url1 page1 url2 url2 [(url2, page2), (url3, page3)] rfl rfl rfl
      (Chain.step url2 page2 url3 url3 [(url3, page3)] rfl rfl rfl
        (Chain.last url3 page3 rfl rfl)))
    rfl rfl (by decide)
  refine ⟨?_, ?_⟩
  · rw [h.1]
    rfl
  · rw [h.2]
    rfl

/-- C5: when fetching page N fails at page level (transport failure,
non-success status, or page decode failure), the stream yields all
items already decoded from the earlier pages, then one terminal error
element, and ends; the failing URL is fetched exactly once (no
retry). -/
theorem get_paginated_page_failure_terminal {J C : Type} (get : GetFn)
    (parsePage : String → Except String (Page J)) (decode : J → Except String C)
    (join : JoinFn) (base u : Url) (pages : List (Url × Page J)) (f : Url) (e : Error)
    (fuel : Nat)
    (hchain : ChainFail get parsePage join base u pages f e)
    (hfuel : pages.length + 1 ≤ fuel) :
    (get_paginated get parsePage decode join base fuel u).1 = pages.map Prod.fst ++ [f] ∧
    (get_paginated get parsePage decode join base fuel u).2 =
      (pages.map (fun up => pageYields decode up.2)).flatten ++ [.error e] := by
  rw [get_paginated,
    getPaginatedGo_chainFail get parsePage decode join base u pages f e hchain fuel hfuel]
  exact ⟨rfl, rfl⟩

/-- Witness for C5: page 2 answers with status 500; the stream yields
page 1's items then the status-carrying terminal error, having fetched
page 2 exactly once. -/
theorem get_paginated_page_failure_terminal_witness :
    (get_paginated mockGet500 mockParsePage mockDecode mockJoin url1 2 url1).1 =
      [url1, url2] ∧
    (get_paginated mockGet500 mockParsePage mockDecode mockJoin url1 2 url1).2 =
      [.ok 1, .ok 2, .error (.ResponseStatus 500 "oops")] := by
  have h := get_paginated_page_failure_terminal mockGet500 mockParsePage mockDecode mockJoin
    url1 url1 [(url1, page1)] url2 (.ResponseStatus 500 "oops") 2
    (ChainFail.step url1 page1 url2 url2 [] url2 (.ResponseStatus 500 "oops") rfl rfl rfl
      (ChainFail.here url2 (.ResponseStatus 500 "oops") rfl))
    (by decide)
  refine ⟨by rw [h.1]; rfl, ?_⟩
  rw [h.2]
  rfl

/-- C6: when a fetched page carries a "next" link, the engine uses the
link verbatim as the next fetched URL if it is absolute (has a host),
otherwise resolves it against the configured entrypoint; if that
resolution fails the stream ends with a pagination-link error after the
page's items. -/
theorem get_paginated_next_link_resolution {J C : Type} (get : GetFn)
    (parsePage : String → Except String (Page J)) (decode : J → Except String C)
    (join : JoinFn) (base u : Url) (p : Page J) (link : Url) (fuel : Nat)
    (hfetch : get_json_map get parsePage u = .ok p)
    (hlink : p.getLink "next" = some link) :
    (link.hasHost = true →
      getPaginatedGo get parsePage decode join base (fuel + 1) u =
        (u :: (getPaginatedGo get parsePage decode join base fuel link).1,
         pageYields decode p ++ (getPaginatedGo get parsePage decode join base fuel link).2)) ∧
    (∀ u2 : Url, link.hasHost = false → join base link.text = .ok u2 →
      getPaginatedGo get parsePage decode join base (fuel + 1) u =
        (u :: (getPaginatedGo get parsePage decode join base fuel u2).1,
         pageYields decode p ++ (getPaginatedGo get parsePage decode join base fuel u2).2)) ∧
    (∀ msg : String, link.hasHost = false → join base link.text = .error msg →
      getPaginatedGo get parsePage decode join base (fuel + 1) u =
        ([u], pageYields decode p ++ [.error (Error.pag_item msg)])) := by
  refine ⟨?_, ?_, ?_⟩
  · intro habs
    simp [getPaginatedGo, hfetch, hlink, nextUrl, habs, pageYields]
  · intro u2 hrel hjoin
    simp [getPaginatedGo, hfetch, hlink, nextUrl, hrel, hjoin, pageYields]
  · intro msg hrel hjoin
    simp [getPaginatedGo, hfetch, hlink, nextUrl, hrel, hjoin, pageYields]

/-- Witness for C6: an absolute "next" link is fetched verbatim as the
next page; a relative link whose resolution fails ends the stream with
a pagination-link error after the page's items. -/
theorem get_paginated_next_link_resolution_witness :
    getPaginatedGo mockGet mockParsePage mockDecode mockJoin url1 2 url1 =
      ([url1, url2], [.ok 1, .ok 2, .ok 3]) ∧
    getPaginatedGo mockGetR mockParsePageR mockDecode mockJoinFail urlR 1 urlR =
      ([urlR], [.ok 7, .error (Error.pag_item "relative URL without a base")]) := by
  constructor
  · have h := (get_paginated_next_link_resolution mockGet mockParsePage mockDecode mockJoin
      url1 url1 page1 url2 1 rfl rfl).1 rfl
    rw [h]
    rfl
  · have h := (get_paginated_next_link_resolution mockGetR mockParsePageR mockDecode mockJoinFail
      urlR urlR pageR linkRel 0 rfl rfl).2.2 "relative URL without a base" rfl rfl
    rw [h]
    rfl

/-- C7 counterexample: the claim "every response with a non-2xx status
yields an error carrying both the status code and the response body"
fails on `get_file_by_task_id_and_name`: with the transport answering
status 404 and body "NOPE", the produced error carries the fixed text
"Failed to fetch file", not the response body. -/
theorem non_success_body_counterexample :
    get_file_by_task_id_and_name (fun _ => .ok ("NOPE", 404)) mockJoinConcat
        ⟨"https://api.example", true⟩ 42 "data.bin" =
      .error (.ResponseStatus 404 "Failed to fetch file") ∧
    ¬ carriesStatusAndBody
        (get_file_by_task_id_and_name (fun _ => .ok ("NOPE", 404)) mockJoinConcat
          ⟨"https://api.example", true⟩ 42 "data.bin") 404 "NOPE" := by
  constructor
  · rfl
  · intro h
    rw [carriesStatusAndBody,
      show get_file_by_task_id_and_name (fun _ => .ok ("NOPE", 404)) mockJoinConcat
          ⟨"https://api.example", true⟩ 42 "data.bin" =
        .error (.ResponseStatus 404 "Failed to fetch file") from rfl] at h
    injection h with h1
    injection h1 with _ h2
    exact absurd h2 (by decide)

/-- C7 amended: every operation of the request surface treats any 2xx
status as success and any non-2xx status as `Error::ResponseStatus`
carrying the status code; operations funnelled through `get_json_map`,
`post_json_map` and the delete helpers carry the response body in that
error, while `get_file_by_task_id_and_name` substitutes the fixed text
"Failed to fetch file" for the body. -/
theorem non_success_status_error_surface :
    (∀ (α : Type) (get : GetFn) (parse : String → Except String α) (url : Url)
        (b : String) (st : Nat), get url = .ok (b, st) → isSuccess st = false →
      get_json_map get parse url = .error (.ResponseStatus st b)) ∧
    (∀ (α : Type) (get : GetFn) (parse : String → Except String α) (url : Url)
        (b : String) (st : Nat), get url = .ok (b, st) → isSuccess st = true →
      get_json_map get parse url = (parse b).mapError Error.fromSerde) ∧
    (∀ (α : Type) (parse : String → Except String α) (b : String) (st : Nat),
        isSuccess st = false →
      post_json_map (.ok (b, st)) parse = .error (.ResponseStatus st b)) ∧
    (∀ (del : GetFn) (join : JoinFn) (entrypoint uri : Url) (id : Int)
        (b : String) (st : Nat),
        path_to_url join entrypoint ("satellite_bands/" ++ toString id) = .ok uri →
        del uri = .ok (b, st) → isSuccess st = false →
      delete_band_details del join entrypoint id = .error (.ResponseStatus st b)) ∧
    (∀ (get : GetFn) (join : JoinFn) (entrypoint uri : Url) (tid : Int)
        (name data : String) (st : Nat),
        path_to_url join entrypoint ("downloads/" ++ toString tid ++ "/" ++ name) = .ok uri →
        get uri = .ok (data, st) →
      (isSuccess st = false →
        get_file_by_task_id_and_name get join entrypoint tid name =
          .error (.ResponseStatus st "Failed to fetch file")) ∧
      (isSuccess st = true →
        get_file_by_task_id_and_name get join entrypoint tid name = .ok data)) := by
  refine ⟨?_, ?_, ?_, ?_, ?_⟩
  · intro α get parse url b st hget hst
    simp [get_json_map, hget, error_on_non_success, hst]
  · intro α get parse url b st hget hst
    simp [get_json_map, hget, error_on_non_success, hst]
  · intro α parse b st hst
    simp [post_json_map, error_on_non_success, hst]
  · intro del join entrypoint uri id b st huri hdel hst
    simp [delete_band_details, huri, hdel, error_on_non_success, hst]
  · intro get join entrypoint uri tid name data st huri hget
    constructor
    · intro hst
      simp [get_file_by_task_id_and_name, huri, hget, error_on_non_success, hst]
    · intro hst
      simp [get_file_by_task_id_and_name, huri, hget, error_on_non_success, hst]

/-- Witness for the amended C7: concrete 404/200/500/403 responses on
each representative operation. -/
theorem non_success_status_error_surface_witness :
    get_json_map (fun _ => .ok ("NOPE", 404)) (fun _ => Except.ok (0 : Nat)) url1 =
      .error (.ResponseStatus 404 "NOPE") ∧
    get_json_map (fun _ => .ok ("1", 200)) (fun _ => Except.ok (1 : Nat)) url1 = .ok 1 ∧
    post_json_map (.ok ("boom", 500)) (fun _ => Except.ok (0 : Nat)) =
      .error (.ResponseStatus 500 "boom") ∧
    delete_band_details (fun _ => .ok ("denied", 403)) mockJoinConcat
        ⟨"https://api.example", true⟩ 7 = .error (.ResponseStatus 403 "denied") ∧
    get_file_by_task_id_and_name (fun _ => .ok ("bytes", 200)) mockJoinConcat
        ⟨"https://api.example", true⟩ 42 "data.bin" = .ok "bytes" := by
  refine ⟨?_, ?_, ?_, ?_, ?_⟩
  · exact non_success_status_error_surface.1 Nat (fun _ => .ok ("NOPE", 404))
      (fun _ => Except.ok 0) url1 "NOPE" 404 rfl rfl
  · rw [non_success_status_error_surface.2.1 Nat (fun _ => .ok ("1", 200))
      (fun _ => Except.ok 1) url1 "1" 200 rfl rfl]
    rfl
  · exact non_success_status_error_surface.2.2.1 Nat (fun _ => Except.ok 0) "boom" 500 rfl
  · exact non_success_status_error_surface.2.2.2.1 (fun _ => .ok ("denied", 403))
      mockJoinConcat ⟨"https://api.example", true⟩
      ⟨"https://api.example/satellite_bands/7", true⟩ 7 "denied" 403 rfl rfl rfl
  · exact (non_success_status_error_surface.2.2.2.2 (fun _ => .ok ("bytes", 200))
      mockJoinConcat ⟨"https://api.example", true⟩
      ⟨"https://api.example/downloads/42/data.bin", true⟩ 42 "data.bin" "bytes" 200
      rfl rfl).2 rfl

/-- C8 counterexample: `CachingClient` exposes no `invalidate_all`
operation — its method surface (the `FreedomApi` impl in
src/caching_client.rs; there is no inherent impl block) does not
contain it. -/
theorem cachingClient_no_invalidate_all :
    "invalidate_all" ∉ cachingClientMethods := by
  decide

/-- C8 amended: the caching decorator exposes no cache-invalidation
operation at all; its method surface is exactly `get`, `post`,
`config`, `config_mut` (the cache is bounded only by the capacity fixed
when the moka cache is built). -/
theorem cachingClient_method_surface :
    cachingClientMethods = ["get", "post", "config", "config_mut"] ∧
    "invalidate_all" ∉ cachingClientMethods :=
  ⟨rfl, by decide⟩

/-- C9: both container types are transparent identities: dereferencing
`Inner::new t` or `Arc::new t` yields `t`, and `into_inner` on either
container returns `t` unchanged. -/
theorem container_transparency {T : Type} (t : T) :
    (Inner.new t).deref = t ∧ (Inner.new t).into_inner = t ∧
    (Shared.new t).deref = t ∧ (Shared.new t).into_inner = t :=
  ⟨rfl, rfl, rfl, rfl⟩

/-- Witness for C9 at the concrete value 5. -/
theorem container_transparency_witness :
    (Inner.new 5).deref = 5 ∧ (Inner.new 5).into_inner = 5 ∧
    (Shared.new 5).deref = 5 ∧ (Shared.new 5).into_inner = 5 :=
  container_transparency 5

/-- C10: when building the request URL from the entrypoint fails, each
collection-returning operation performs no network fetch (its fetch
trace is empty) and returns a stream yielding exactly the one
URI-construction error, then ending. -/
theorem collection_endpoints_uri_error {J C : Type} (get : GetFn)
    (parsePage : String → Except String (Page J)) (decode : J → Except String C)
    (join : JoinFn) (entrypoint : Url) (fuel : Nat) (m : String → String)
    (hjoin : ∀ path, join entrypoint path = .error (m path)) :
    get_accounts get parsePage decode join entrypoint fuel =
      ([], [.error (.InvalidUri (m "accounts"))]) ∧
    get_satellite_bands get parsePage decode join entrypoint fuel =
      ([], [.error (.InvalidUri (m "satellite_bands"))]) ∧
    get_users get parsePage decode join entrypoint fuel =
      ([], [.error (.InvalidUri (m "users"))]) := by
  refine ⟨?_, ?_, ?_⟩ <;>
    simp [get_accounts, get_satellite_bands, get_users, path_to_url, once_err, hjoin,
      Except.mapError]

/-- Witness for C10: an entrypoint that cannot be a base makes all
three endpoints yield exactly the one `InvalidUri` error without
fetching. -/
theorem collection_endpoints_uri_error_witness :
    get_accounts mockGet mockParsePage mockDecode (fun _ _ => .error "cannot be a base")
        ⟨"data:text/plain", false⟩ 3 =
      ([], [.error (.InvalidUri "cannot be a base")]) ∧
    get_satellite_bands mockGet mockParsePage mockDecode (fun _ _ => .error "cannot be a base")
        ⟨"data:text/plain", false⟩ 3 =
      ([], [.error (.InvalidUri "cannot be a base")]) ∧
    get_users mockGet mockParsePage mockDecode (fun _ _ => .error "cannot be a base")
        ⟨"data:text/plain", false⟩ 3 =
      ([], [.error (.InvalidUri "cannot be a base")]) :=
  collection_endpoints_uri_error mockGet mockParsePage mockDecode
    (fun _ _ => .error "cannot be a base") ⟨"data:text/plain", false⟩ 3
    (fun _ => "cannot be a base") (fun _ => rfl)

end FreedomApi
